import Mathlib

/-!
Shallow embedding of `src/tekton/pipeline_run.go` (package `tekton` of the
release-service repository): the run-specification assembly logic for release
PipelineRuns.  Go maps are modelled as association lists with Go's lookup
semantics (a missing key reads as the zero value ""); Go slices as Lean lists;
the receiver-mutating `With*` methods as functions from the run value to the
updated run value.  Environment lookups (`os.Getenv`) are passed in as explicit
arguments.  External library calls (`encoding/json`, `operator-lib`,
`controller-runtime`) are abstracted at their call sites as documented on each
definition.
-/

/-- The shape tag of a Tekton parameter value (`tektonv1beta1.ParamType`):
`"string"` or `"array"`. -/
inductive ParamType where
  | string
  | array
deriving DecidableEq, Repr

/-- `tektonv1beta1.ArrayOrString`: a parameter value carrying a shape tag and
both a scalar slot (`StringVal`) and a list slot (`ArrayVal`).  The Go zero
values are `""` and the empty list. -/
structure ArrayOrString where
  type : ParamType
  stringVal : String
  arrayVal : List String
deriving DecidableEq, Repr

/-- `tektonv1beta1.ParamValue` is an alias of `ArrayOrString` in the Tekton
API. -/
abbrev ParamValue := ArrayOrString

/-- `tektonv1beta1.Param`: a named parameter. -/
structure Param where
  name : String
  value : ArrayOrString
deriving DecidableEq, Repr

/-- `tektonv1beta1.ResolverRef`: a resolver name with its parameters. -/
structure ResolverRef where
  resolver : String
  params : List Param
deriving DecidableEq, Repr

/-- `tektonv1beta1.PipelineRef`: a direct name and an optional embedded
resolver reference; the Go zero value has `Name = ""` and no resolver. -/
structure PipelineRef where
  name : String
  resolverRef : Option ResolverRef
deriving DecidableEq, Repr

/-- `corev1.PersistentVolumeClaimVolumeSource`, restricted to the one field
the source sets. -/
structure PersistentVolumeClaimVolumeSource where
  claimName : String
deriving DecidableEq, Repr

/-- `tektonv1beta1.WorkspaceBinding`, restricted to the fields the source
sets: a name and a pointer to a claim source (`none` models the nil
pointer). -/
structure WorkspaceBinding where
  name : String
  persistentVolumeClaim : Option PersistentVolumeClaimVolumeSource
deriving DecidableEq, Repr

/-- `v1.ObjectMeta`, restricted to the fields the source touches.  `ns`
models `Namespace`; the label and annotation maps are association lists with
Go-map lookup semantics; `finalizers` models the finalizer slice. -/
structure ObjectMeta where
  generateName : String
  ns : String
  labels : List (String × String)
  annotations : List (String × String)
  finalizers : List String
deriving DecidableEq, Repr

/-- `tektonv1beta1.PipelineRunSpec`, restricted to the fields the source
sets. -/
structure PipelineRunSpec where
  pipelineRef : Option PipelineRef
  params : List Param
  workspaces : List WorkspaceBinding
  serviceAccountName : String
deriving DecidableEq, Repr

/-- `ReleasePipelineRun`: the PipelineRun alias the source defines, holding
the metadata and spec the mutators touch. -/
structure ReleasePipelineRun where
  objectMeta : ObjectMeta
  spec : PipelineRunSpec
deriving DecidableEq, Repr

/-- A parameter declared by a `v1alpha1.ReleaseStrategy`: a name, a single
value and a list of values (external input). -/
structure StrategyParam where
  name : String
  value : String
  values : List String
deriving DecidableEq, Repr

/-- `v1alpha1.ReleaseStrategySpec` (external input), restricted to the fields
the source reads. -/
structure ReleaseStrategySpec where
  pipeline : String
  bundle : String
  params : List StrategyParam
  persistentVolumeClaim : String
  serviceAccount : String
deriving DecidableEq, Repr

/-- `v1alpha1.ReleaseStrategy` (external input). -/
structure ReleaseStrategy where
  spec : ReleaseStrategySpec
deriving DecidableEq, Repr

/-- `v1alpha1.Release` (external input), restricted to the fields the source
reads: name, namespace and the metadata maps. -/
structure Release where
  name : String
  ns : String
  labels : List (String × String)
  annotations : List (String × String)
deriving DecidableEq, Repr

/-- `corev1.ConfigMap` (external input), restricted to its `Data` map. -/
structure ConfigMap where
  data : List (String × String)
deriving DecidableEq, Repr

/-- `ecapiv1alpha1.EnterpriseContractPolicy` (external input): its declared
kind name, and `specJson`, which stands for `string(json.Marshal(p.Spec))` —
the policy's structured specification serialized by the external
`encoding/json` library, abstracted here as the resulting string. -/
structure EnterpriseContractPolicy where
  kind : String
  specJson : String
deriving DecidableEq, Repr

/-- Lookup in a Go `map[string]string` modelled as an association list:
the value of the first entry with the given key. -/
def mapLookup : List (String × String) → String → Option String
  | [], _ => none
  | p :: rest, k => if p.1 = k then some p.2 else mapLookup rest k

/-- Go map indexing `m[k]`: a missing key reads as the zero value `""`. -/
def mapGetD (m : List (String × String)) (k : String) : String :=
  (mapLookup m k).getD ""

/-- Go map assignment `m[k] = v`: replaces the entry when the key is present,
appends it otherwise. -/
def mapInsert (m : List (String × String)) (k v : String) : List (String × String) :=
  if (mapLookup m k).isSome then
    m.map (fun p => if p.1 = k then (k, v) else p)
  else m ++ [(k, v)]

/-- Assigning every entry of `entries` into the map `m`, in order. -/
def addEntries (m entries : List (String × String)) : List (String × String) :=
  entries.foldl (fun acc e => mapInsert acc e.1 e.2) m

/-- `strings.HasPrefix`, on the character lists of the strings. -/
def strHasPfx (s p : String) : Bool :=
  p.data.isPrefixOf s.data

/-- `PipelineTypeRelease = "release"`: the type for PipelineRuns created to
run a release Pipeline. -/
def PipelineTypeRelease : String := "release"

/-- NewReleasePipelineRun creates an empty PipelineRun in the given namespace
with `GenerateName` set to the prefix followed by `"-"`; every other field is
the Go zero value. -/
def NewReleasePipelineRun (pfx namespc : String) : ReleasePipelineRun :=
  { objectMeta :=
      { generateName := pfx ++ "-", ns := namespc,
        labels := [], annotations := [], finalizers := [] },
    spec :=
      { pipelineRef := none, params := [], workspaces := [],
        serviceAccountName := "" } }

/-- WithExtraParam appends one extra param to the release PipelineRun. -/
def WithExtraParam (r : ReleasePipelineRun) (name : String) (value : ArrayOrString) :
    ReleasePipelineRun :=
  { r with spec :=
      { r.spec with params := r.spec.params ++ [{ name := name, value := value }] } }

/-- The fixed `gitResolverFields` list of `WithEnterpriseContractConfigMap`. -/
def gitResolverFields : List String :=
  ["verify_ec_task_git_url", "verify_ec_task_git_revision", "verify_ec_task_git_pathInRepo"]

/-- WithEnterpriseContractConfigMap appends, for each of the three fixed
fields, a string param whose value is `ecConfig.Data[field]` (Go map read:
`""` when the key is missing). -/
def WithEnterpriseContractConfigMap (r : ReleasePipelineRun) (ecConfig : ConfigMap) :
    ReleasePipelineRun :=
  gitResolverFields.foldl
    (fun acc field =>
      WithExtraParam acc field
        { type := .string, stringVal := mapGetD ecConfig.data field, arrayVal := [] })
    r

/-- WithEnterpriseContractPolicy: the source converts the policy's `Kind` to a
rune slice, writes `unicode.ToLower` of rune 0 back to index 0, and appends one
string param with that name and the marshalled policy spec as value.  Indexing
rune 0 of an empty `Kind` is a runtime panic (index out of range), modelled as
`none`; `Char.toLower` models `unicode.ToLower` (they agree on ASCII kind
names). -/
def WithEnterpriseContractPolicy (r : ReleasePipelineRun)
    (enterpriseContractPolicy : EnterpriseContractPolicy) : Option ReleasePipelineRun :=
  match enterpriseContractPolicy.kind.data with
  | [] => none
  | c :: cs =>
    some (WithExtraParam r (String.mk (Char.toLower c :: cs))
      { type := .string, stringVal := enterpriseContractPolicy.specJson, arrayVal := [] })

/-- Modelled from the spec: `metadata.ReleaseFinalizer` lives in the
repository's `metadata` package, which is not under `src/`; the spec calls it
the deletion-guard finalizer marker. -/
def ReleaseFinalizer : String := "release.appstudio.openshift.io/finalizer"

/-- `controllerutil.AddFinalizer` (external controller-runtime library):
appends the finalizer unless it is already present. -/
def AddFinalizer (r : ReleasePipelineRun) (f : String) : ReleasePipelineRun :=
  if f ∈ r.objectMeta.finalizers then r
  else { r with objectMeta :=
    { r.objectMeta with finalizers := r.objectMeta.finalizers ++ [f] } }

/-- WithOwner: the source calls `libhandler.SetOwnerAnnotations(release, r)`,
DISCARDS its error (`_ =`), and then adds the release finalizer.  The external
library call is abstracted by its outcome `ownerAnnos`: `some annos` when it
succeeds and records the owner back-reference annotation entries `annos`,
`none` when it fails (in which case it records nothing on the object). -/
def WithOwner (r : ReleasePipelineRun) (ownerAnnos : Option (List (String × String))) :
    ReleasePipelineRun :=
  let r1 :=
    match ownerAnnos with
    | some annos =>
      { r with objectMeta :=
        { r.objectMeta with annotations := addEntries r.objectMeta.annotations annos } }
    | none => r
  AddFinalizer r1 ReleaseFinalizer

/-- Modelled from the spec: `metadata.PipelinesTypeLabel` (the run-type label
key), from the repository's `metadata` package, not under `src/`. -/
def PipelinesTypeLabel : String := "pipelines.appstudio.openshift.io/type"

/-- Modelled from the spec: `metadata.ReleaseNameLabel`, from the repository's
`metadata` package, not under `src/`. -/
def ReleaseNameLabel : String := "release.appstudio.openshift.io/name"

/-- Modelled from the spec: `metadata.ReleaseNamespaceLabel`, from the
repository's `metadata` package, not under `src/`. -/
def ReleaseNamespaceLabel : String := "release.appstudio.openshift.io/namespace"

/-- Modelled from the spec: `metadata.ApplicationNameLabel`, from the
repository's `metadata` package, not under `src/`. -/
def ApplicationNameLabel : String := "appstudio.openshift.io/application"

/-- Modelled from the spec: the recognized external prefix
(`integrationServiceGitopsPkg.PipelinesAsCodePrefix`, an external constant)
whose labels/annotations are propagated from the release. -/
def PipelinesAsCodePfx : String := "pac.test.appstudio.openshift.io"

/-- Modelled from the spec: `metadata.GetLabelsWithPrefix` (repository
`metadata` package, not under `src/`): every label entry of the release whose
key carries the prefix, key and value verbatim. -/
def GetLabelsWithPfx (release : Release) (p : String) : List (String × String) :=
  release.labels.filter (fun kv => strHasPfx kv.1 p)

/-- Modelled from the spec: `metadata.GetAnnotationsWithPrefix` (repository
`metadata` package, not under `src/`): every annotation entry of the release
whose key carries the prefix, key and value verbatim. -/
def GetAnnotationsWithPfx (release : Release) (p : String) : List (String × String) :=
  release.annotations.filter (fun kv => strHasPfx kv.1 p)

/-- Modelled from the spec: `metadata.AddLabels` (repository `metadata`
package, not under `src/`): copies the given entries into the object's label
map. -/
def AddLabels (r : ReleasePipelineRun) (entries : List (String × String)) :
    ReleasePipelineRun :=
  { r with objectMeta :=
    { r.objectMeta with labels := addEntries r.objectMeta.labels entries } }

/-- Modelled from the spec: `metadata.AddAnnotations` (repository `metadata`
package, not under `src/`): copies the given entries into the object's
annotation map. -/
def AddAnnotations (r : ReleasePipelineRun) (entries : List (String × String)) :
    ReleasePipelineRun :=
  { r with objectMeta :=
    { r.objectMeta with annotations := addEntries r.objectMeta.annotations entries } }

/-- WithReleaseAndApplicationMetadata: overwrites the label map with the fixed
four entries, then copies the prefix-filtered annotations and labels of the
release (in that order, after the overwrite). -/
def WithReleaseAndApplicationMetadata (r : ReleasePipelineRun) (release : Release)
    (applicationName : String) : ReleasePipelineRun :=
  let r1 := { r with objectMeta :=
    { r.objectMeta with labels :=
      [(PipelinesTypeLabel, PipelineTypeRelease),
       (ReleaseNameLabel, release.name),
       (ReleaseNamespaceLabel, release.ns),
       (ApplicationNameLabel, applicationName)] } }
  let r2 := AddAnnotations r1 (GetAnnotationsWithPfx release PipelinesAsCodePfx)
  AddLabels r2 (GetLabelsWithPfx release PipelinesAsCodePfx)

/-- WithServiceAccount sets the service account name. -/
def WithServiceAccount (r : ReleasePipelineRun) (serviceAccount : String) :
    ReleasePipelineRun :=
  { r with spec := { r.spec with serviceAccountName := serviceAccount } }

/-- WithWorkspace: if either the name or the claim is empty, no workspace is
added; otherwise one binding with those two values is appended. -/
def WithWorkspace (r : ReleasePipelineRun) (name persistentVolumeClaim : String) :
    ReleasePipelineRun :=
  if name = "" ∨ persistentVolumeClaim = "" then r
  else
    { r with spec :=
      { r.spec with workspaces := r.spec.workspaces ++
        [{ name := name,
           persistentVolumeClaim := some { claimName := persistentVolumeClaim } }] } }

/-- getBundleResolver returns a bundle ResolverRef for the given bundle and
pipeline. -/
def getBundleResolver (bundle pipeline : String) : ResolverRef :=
  { resolver := "bundles",
    params :=
      [{ name := "bundle",
         value := { type := .string, stringVal := bundle, arrayVal := [] } },
       { name := "kind",
         value := { type := .string, stringVal := "pipeline", arrayVal := [] } },
       { name := "name",
         value := { type := .string, stringVal := pipeline, arrayVal := [] } }] }

/-- getPipelineRef returns a PipelineRef generated from the given
ReleaseStrategy: a direct-name reference when the bundle is empty, the bundle
resolver reference otherwise. -/
def getPipelineRef (strategy : ReleaseStrategy) : PipelineRef :=
  if strategy.spec.bundle = "" then
    { name := strategy.spec.pipeline, resolverRef := none }
  else
    { name := "",
      resolverRef := some (getBundleResolver strategy.spec.bundle strategy.spec.pipeline) }

/-- The body of the `for _, param := range strategy.Spec.Params` loop of
`WithReleaseStrategy`.  The accumulator carries the run AND the Go local
`valueType`, which the source declares ONCE BEFORE the loop: the `if
len(param.Values) > 0` sets it to array, and nothing ever resets it to string,
so it is threaded from one iteration to the next exactly as in the source. -/
def strategyParamStep (acc : ReleasePipelineRun × ParamType) (param : StrategyParam) :
    ReleasePipelineRun × ParamType :=
  let valueType := if param.values.length > 0 then ParamType.array else acc.2
  (WithExtraParam acc.1 param.name
    { type := valueType, stringVal := param.value, arrayVal := param.values },
   valueType)

/-- WithReleaseStrategy: sets the pipeline reference, runs the parameter loop
(with `valueType` initialized to string before the loop, as in the source),
then attaches the workspace (the two `os.Getenv` defaults are passed in as
`defaultWorkspaceName` and `defaultPvc`) and the service account. -/
def WithReleaseStrategy (r : ReleasePipelineRun) (strategy : ReleaseStrategy)
    (defaultWorkspaceName defaultPvc : String) : ReleasePipelineRun :=
  let r0 := { r with spec := { r.spec with pipelineRef := some (getPipelineRef strategy) } }
  let r1 := (strategy.spec.params.foldl strategyParamStep (r0, ParamType.string)).1
  let r2 :=
    if strategy.spec.persistentVolumeClaim = "" then
      WithWorkspace r1 defaultWorkspaceName defaultPvc
    else
      WithWorkspace r1 defaultWorkspaceName strategy.spec.persistentVolumeClaim
  WithServiceAccount r2 strategy.spec.serviceAccount

/-- The parameter list the loop of `WithReleaseStrategy` appends, in closed
form: a recursion threading the `valueType` local, which the source declares
once before the loop and never resets. -/
def assembleParams : ParamType → List StrategyParam → List Param
  | _, [] => []
  | vt, p :: rest =>
    let vt2 := if p.values.length > 0 then ParamType.array else vt
    { name := p.name,
      value := { type := vt2, stringVal := p.value, arrayVal := p.values } }
      :: assembleParams vt2 rest

theorem foldl_strategyParamStep (ps : List StrategyParam) (r : ReleasePipelineRun)
    (vt : ParamType) :
    ((ps.foldl strategyParamStep (r, vt)).1).spec.params
      = r.spec.params ++ assembleParams vt ps := by
  induction ps generalizing r vt with
  | nil => simp [assembleParams]
  | cons p rest ih =>
    simp only [List.foldl_cons, assembleParams]
    rw [show List.foldl strategyParamStep (strategyParamStep (r, vt) p) rest
        = List.foldl strategyParamStep
            (WithExtraParam r p.name
              { type := if p.values.length > 0 then ParamType.array else vt,
                stringVal := p.value, arrayVal := p.values },
             if p.values.length > 0 then ParamType.array else vt) rest from rfl]
    rw [ih]
    simp [WithExtraParam]

theorem assembleParams_proj (vt : ParamType) (ps : List StrategyParam) :
    (assembleParams vt ps).map (fun p => (p.name, p.value.stringVal, p.value.arrayVal))
      = ps.map (fun q => (q.name, q.value, q.values)) := by
  induction ps generalizing vt with
  | nil => rfl
  | cons p rest ih => simp [assembleParams, ih]

theorem withWorkspace_params (r : ReleasePipelineRun) (n c : String) :
    (WithWorkspace r n c).spec.params = r.spec.params := by
  unfold WithWorkspace; split <;> rfl

theorem withReleaseStrategy_params (r : ReleasePipelineRun) (s : ReleaseStrategy)
    (dw dp : String) :
    (WithReleaseStrategy r s dw dp).spec.params
      = r.spec.params ++ assembleParams ParamType.string s.spec.params := by
  unfold WithReleaseStrategy WithServiceAccount
  split <;> simp [withWorkspace_params, foldl_strategyParamStep]

theorem mapLookup_append (a b : List (String × String)) (k : String) :
    mapLookup (a ++ b) k = (mapLookup a k).orElse (fun _ => mapLookup b k) := by
  induction a with
  | nil => simp [mapLookup]
  | cons p rest ih =>
    simp only [List.cons_append, mapLookup]
    split <;> simp [ih]

theorem mapLookup_replace_self (m : List (String × String)) (k v : String)
    (h : (mapLookup m k).isSome) :
    mapLookup (m.map (fun p => if p.1 = k then (k, v) else p)) k = some v := by
  induction m with
  | nil => simp [mapLookup] at h
  | cons p rest ih =>
    by_cases hp : p.1 = k
    · simp [mapLookup, hp]
    · simp only [mapLookup, hp, if_false] at h
      simp [mapLookup, hp, ih h]

theorem mapLookup_replace_ne (m : List (String × String)) (k v k' : String)
    (h : k' ≠ k) :
    mapLookup (m.map (fun p => if p.1 = k then (k, v) else p)) k' = mapLookup m k' := by
  induction m with
  | nil => rfl
  | cons p rest ih =>
    by_cases hp : p.1 = k
    · simp [mapLookup, hp, Ne.symm h, ih]
    · by_cases hp' : p.1 = k'
      · simp [mapLookup, hp, hp', h]
      · simp [mapLookup, hp, hp', ih, h]

theorem mapLookup_mapInsert_self (m : List (String × String)) (k v : String) :
    mapLookup (mapInsert m k v) k = some v := by
  unfold mapInsert
  split
  · exact mapLookup_replace_self m k v (by assumption)
  · rename_i h
    rw [mapLookup_append]
    rw [Option.not_isSome_iff_eq_none.mp h]
    simp [mapLookup]

theorem mapLookup_mapInsert_ne (m : List (String × String)) (k v k' : String)
    (h : k' ≠ k) :
    mapLookup (mapInsert m k v) k' = mapLookup m k' := by
  unfold mapInsert
  split
  · exact mapLookup_replace_ne m k v k' h
  · rw [mapLookup_append]
    cases hm : mapLookup m k' <;> simp [mapLookup, Ne.symm h, hm]

theorem mapLookup_addEntries_not_mem (entries : List (String × String))
    (m : List (String × String)) (k : String) (h : k ∉ entries.map Prod.fst) :
    mapLookup (addEntries m entries) k = mapLookup m k := by
  induction entries generalizing m with
  | nil => rfl
  | cons e rest ih =>
    simp only [List.map_cons, List.mem_cons, not_or] at h
    show mapLookup (addEntries (mapInsert m e.1 e.2) rest) k = _
    rw [ih _ h.2, mapLookup_mapInsert_ne _ _ _ _ h.1]

theorem mapLookup_addEntries_mem (entries : List (String × String))
    (m : List (String × String)) (k v : String) (hmem : (k, v) ∈ entries)
    (hnd : (entries.map Prod.fst).Nodup) :
    mapLookup (addEntries m entries) k = some v := by
  induction entries generalizing m with
  | nil => simp at hmem
  | cons e rest ih =>
    simp only [List.map_cons, List.nodup_cons] at hnd
    rcases List.mem_cons.mp hmem with he | hr
    · have hk : k = e.1 := by rw [← he]
      show mapLookup (addEntries (mapInsert m e.1 e.2) rest) k = some v
      rw [mapLookup_addEntries_not_mem rest _ k (hk ▸ hnd.1)]
      rw [hk, ← show e.2 = v from congrArg Prod.snd he.symm]
      exact mapLookup_mapInsert_self _ _ _
    · exact ih (mapInsert m e.1 e.2) hr hnd.2

theorem getLabelsWithPfx_keys_nodup (release : Release) (p : String)
    (h : (release.labels.map Prod.fst).Nodup) :
    ((GetLabelsWithPfx release p).map Prod.fst).Nodup :=
  h.sublist ((List.filter_sublist _).map Prod.fst)

theorem addFinalizer_mem (r : ReleasePipelineRun) (f : String) :
    f ∈ (AddFinalizer r f).objectMeta.finalizers := by
  unfold AddFinalizer
  split
  · assumption
  · simp

theorem addFinalizer_annotations (r : ReleasePipelineRun) (f : String) :
    (AddFinalizer r f).objectMeta.annotations = r.objectMeta.annotations := by
  unfold AddFinalizer; split <;> rfl

/-- The label map after one application of `WithReleaseAndApplicationMetadata`
in closed form: the fixed four entries overwritten first, the prefix-filtered
release labels copied in afterwards.  It does not depend on the run's previous
labels at all. -/
theorem withReleaseAndApplicationMetadata_labels (r : ReleasePipelineRun)
    (release : Release) (app : String) :
    (WithReleaseAndApplicationMetadata r release app).objectMeta.labels
      = addEntries
          [(PipelinesTypeLabel, PipelineTypeRelease),
           (ReleaseNameLabel, release.name),
           (ReleaseNamespaceLabel, release.ns),
           (ApplicationNameLabel, app)]
          (GetLabelsWithPfx release PipelinesAsCodePfx) := rfl

/-- Claim C1 (code evaluation at the failing input): contrary to the claim,
the classification of a strategy parameter does NOT depend only on that
parameter.  With a first parameter carrying the value list `["x"]` and a
second parameter carrying only the single value `"v"` and an EMPTY value list,
the loop's `valueType` local — declared once before the loop and never reset —
stays `array`, so the second assembled Parameter is classified list-shaped as
well, where the claim (and the spec's per-parameter rule) requires
scalar-shaped. -/
theorem C1_sticky_valueType_eval :
    ((WithReleaseStrategy (NewReleasePipelineRun "release" "default")
        { spec :=
          { pipeline := "p", bundle := "",
            params := [{ name := "a", value := "", values := ["x"] },
                       { name := "b", value := "v", values := [] }],
            persistentVolumeClaim := "", serviceAccount := "" } } "" "").spec.params.map
      (fun p => (p.name, p.value.type)))
      = [("a", ParamType.array), ("b", ParamType.array)] := by rfl

/-- Claim C2 (counterexample): `WithEnterpriseContractPolicy` is NOT defined
for a policy whose `Kind` is the empty string — the source indexes rune 0 of
the empty rune slice, a runtime panic, modelled as `none`. -/
theorem C2_policy_empty_kind_aborts :
    WithEnterpriseContractPolicy (NewReleasePipelineRun "release" "default")
      { kind := "", specJson := "{}" } = none := rfl

/-- Claim C2 (amended): every mutator except `WithEnterpriseContractPolicy`
is a total Lean function of this embedding by construction;
`WithEnterpriseContractPolicy` succeeds (returns a result, no error) for
every policy whose `Kind` is non-empty. -/
theorem C2_policy_nonempty_kind_total (r : ReleasePipelineRun)
    (p : EnterpriseContractPolicy) (h : p.kind ≠ "") :
    (WithEnterpriseContractPolicy r p).isSome := by
  rcases p with ⟨k, pj⟩
  rcases k with ⟨d⟩
  cases d with
  | nil => exact absurd rfl h
  | cons c cs => simp [WithEnterpriseContractPolicy]

/-- Claim C2 witness: the amended theorem at a concrete non-empty kind. -/
theorem C2_policy_nonempty_kind_total_witness :
    (WithEnterpriseContractPolicy (NewReleasePipelineRun "release" "default")
      { kind := "EnterpriseContractPolicy", specJson := "{}" }).isSome :=
  C2_policy_nonempty_kind_total _ _ (by decide)

/-- Claim C3 (counterexample): for a strategy parameter carrying BOTH a
non-empty single value `"v"` and a non-empty value list `["x"]`, the assembled
Parameter is list-shaped yet its scalar slot holds `"v"`, not the zero value
`""`: the source copies both slots verbatim, so the slot not selected by the
shape tag is NOT always the type's zero value. -/
theorem C3_both_slots_populated :
    ((WithReleaseStrategy (NewReleasePipelineRun "release" "default")
        { spec :=
          { pipeline := "p", bundle := "",
            params := [{ name := "p1", value := "v", values := ["x"] }],
            persistentVolumeClaim := "", serviceAccount := "" } } "" "").spec.params.map
      (fun p => (p.value.type, p.value.stringVal, p.value.arrayVal)))
      = [(ParamType.array, "v", ["x"])] ∧ ("v" : String) ≠ "" := ⟨rfl, by decide⟩

/-- Claim C3 (amended): every Parameter placed in the specification's list
carries the input's single value in the scalar slot and the input's value list
in the list slot, both copied verbatim regardless of the shape tag — hence the
slot not selected by the shape tag holds the type's zero value exactly when
the corresponding input field is itself empty. -/
theorem C3_slots_copied_verbatim (r : ReleasePipelineRun) (s : ReleaseStrategy)
    (dw dp : String) :
    ((WithReleaseStrategy r s dw dp).spec.params.map
        (fun p => (p.name, p.value.stringVal, p.value.arrayVal)))
      = (r.spec.params.map (fun p => (p.name, p.value.stringVal, p.value.arrayVal)))
        ++ (s.spec.params.map (fun q => (q.name, q.value, q.values))) := by
  rw [withReleaseStrategy_params, List.map_append, assembleParams_proj]

/-- Claim C4: for every strategy with a non-empty bundle locator,
`getPipelineRef` returns a resolver-based reference with resolver kind the
literal `"bundles"` and exactly the three parameters
`(bundle = B, kind = "pipeline", name = P)` in that order. -/
theorem C4_bundle_resolver_ref (s : ReleaseStrategy) (h : s.spec.bundle ≠ "") :
    getPipelineRef s =
      { name := "",
        resolverRef := some
          { resolver := "bundles",
            params :=
              [{ name := "bundle",
                 value := { type := .string, stringVal := s.spec.bundle, arrayVal := [] } },
               { name := "kind",
                 value := { type := .string, stringVal := "pipeline", arrayVal := [] } },
               { name := "name",
                 value := { type := .string, stringVal := s.spec.pipeline, arrayVal := [] } }] } } := by
  simp [getPipelineRef, getBundleResolver, h]

/-- Claim C4 witness: the theorem at the spec's end-to-end scenario, bundle
`"quay.io/foo:v1"` and pipeline `"deploy"`. -/
theorem C4_bundle_resolver_ref_witness :
    getPipelineRef
        { spec :=
          { pipeline := "deploy", bundle := "quay.io/foo:v1", params := [],
            persistentVolumeClaim := "", serviceAccount := "" } }
      = { name := "",
          resolverRef := some
            { resolver := "bundles",
              params :=
                [{ name := "bundle",
                   value := { type := .string, stringVal := "quay.io/foo:v1", arrayVal := [] } },
                 { name := "kind",
                   value := { type := .string, stringVal := "pipeline", arrayVal := [] } },
                 { name := "name",
                   value := { type := .string, stringVal := "deploy", arrayVal := [] } }] } } :=
  C4_bundle_resolver_ref _ (by decide)

/-- Claim C5: for every strategy whose bundle locator is empty,
`getPipelineRef` returns a direct-name reference equal to the strategy's
template name (passed through unchanged, even when empty) and never a
resolver-based reference. -/
theorem C5_direct_name_ref (s : ReleaseStrategy) (h : s.spec.bundle = "") :
    getPipelineRef s = { name := s.spec.pipeline, resolverRef := none } := by
  simp [getPipelineRef, h]

/-- Claim C5 witness: the theorem at the spec's end-to-end scenario, empty
bundle and pipeline `"build"`. -/
theorem C5_direct_name_ref_witness :
    getPipelineRef
        { spec :=
          { pipeline := "build", bundle := "", params := [],
            persistentVolumeClaim := "", serviceAccount := "" } }
      = { name := "build", resolverRef := none } :=
  C5_direct_name_ref _ rfl

/-- Claim C6: on a specification with no workspace binding, `WithWorkspace`
leaves the bindings unset when the name or the claim is empty, and otherwise
attaches exactly one binding carrying exactly those two values. -/
theorem C6_workspace_binding (r : ReleasePipelineRun) (name claim : String)
    (h : r.spec.workspaces = []) :
    ((name = "" ∨ claim = "") → (WithWorkspace r name claim).spec.workspaces = [])
    ∧ (name ≠ "" → claim ≠ "" →
        (WithWorkspace r name claim).spec.workspaces
          = [{ name := name, persistentVolumeClaim := some { claimName := claim } }]) := by
  constructor
  · intro hor
    simp [WithWorkspace, hor, h]
  · intro h1 h2
    simp [WithWorkspace, h1, h2, h]

/-- Claim C6 witness: the theorem's non-empty branch at the spec's scenario,
workspace `"release-ws"` and claim `"pvc-1"` on a fresh run. -/
theorem C6_workspace_binding_witness :
    (WithWorkspace (NewReleasePipelineRun "release" "default") "release-ws" "pvc-1").spec.workspaces
      = [{ name := "release-ws", persistentVolumeClaim := some { claimName := "pvc-1" } }] :=
  (C6_workspace_binding (NewReleasePipelineRun "release" "default") "release-ws" "pvc-1" rfl).2
    (by decide) (by decide)

/-- Claim C7: for every policy with a non-empty kind name,
`WithEnterpriseContractPolicy` appends exactly one scalar parameter whose name
is the kind with only its first character lower-cased (every other character
unchanged) and whose value is the serialized policy specification. -/
theorem C7_policy_param_lower_first (r : ReleasePipelineRun) (c : Char) (cs : List Char)
    (payload : String) :
    WithEnterpriseContractPolicy r { kind := String.mk (c :: cs), specJson := payload }
      = some { r with spec :=
          { r.spec with params := r.spec.params ++
            [{ name := String.mk (Char.toLower c :: cs),
               value := { type := .string, stringVal := payload, arrayVal := [] } }] } } := rfl

/-- Claim C8: `WithReleaseAndApplicationMetadata` applied twice with the same
release and application yields exactly the same label map as applying it once
(in particular the same fixed four entries), and every prefix-carrying label
of the release survives into the result with its value verbatim — the
prefix-filtered copy happens after the fixed-four overwrite, so those entries
are additive and never clobbered by the fixed four. -/
theorem C8_metadata_idempotent_additive (r : ReleasePipelineRun) (release : Release)
    (app : String) (hnd : (release.labels.map Prod.fst).Nodup) :
    (WithReleaseAndApplicationMetadata
        (WithReleaseAndApplicationMetadata r release app) release app).objectMeta.labels
      = (WithReleaseAndApplicationMetadata r release app).objectMeta.labels
    ∧ ∀ k v, (k, v) ∈ release.labels → strHasPfx k PipelinesAsCodePfx = true →
        mapLookup (WithReleaseAndApplicationMetadata r release app).objectMeta.labels k
          = some v := by
  constructor
  · rfl
  · intro k v hmem hpfx
    rw [withReleaseAndApplicationMetadata_labels]
    exact mapLookup_addEntries_mem _ _ k v
      (List.mem_filter.mpr ⟨hmem, hpfx⟩)
      (getLabelsWithPfx_keys_nodup release _ hnd)

/-- Claim C8 witness: the theorem at a concrete release carrying one
prefix-filtered label and one unrelated label. -/
theorem C8_metadata_idempotent_additive_witness :
    (WithReleaseAndApplicationMetadata
        (WithReleaseAndApplicationMetadata (NewReleasePipelineRun "release" "default")
          { name := "rel", ns := "default",
            labels := [("pac.test.appstudio.openshift.io/url", "u"), ("other", "o")],
            annotations := [] } "app")
        { name := "rel", ns := "default",
          labels := [("pac.test.appstudio.openshift.io/url", "u"), ("other", "o")],
          annotations := [] } "app").objectMeta.labels
      = (WithReleaseAndApplicationMetadata (NewReleasePipelineRun "release" "default")
          { name := "rel", ns := "default",
            labels := [("pac.test.appstudio.openshift.io/url", "u"), ("other", "o")],
            annotations := [] } "app").objectMeta.labels
    ∧ mapLookup
        (WithReleaseAndApplicationMetadata (NewReleasePipelineRun "release" "default")
          { name := "rel", ns := "default",
            labels := [("pac.test.appstudio.openshift.io/url", "u"), ("other", "o")],
            annotations := [] } "app").objectMeta.labels
        "pac.test.appstudio.openshift.io/url" = some "u" :=
  ⟨(C8_metadata_idempotent_additive (NewReleasePipelineRun "release" "default")
      { name := "rel", ns := "default",
        labels := [("pac.test.appstudio.openshift.io/url", "u"), ("other", "o")],
        annotations := [] } "app" (by decide)).1,
   (C8_metadata_idempotent_additive (NewReleasePipelineRun "release" "default")
      { name := "rel", ns := "default",
        labels := [("pac.test.appstudio.openshift.io/url", "u"), ("other", "o")],
        annotations := [] } "app" (by decide)).2
     "pac.test.appstudio.openshift.io/url" "u" (by decide) (by decide)⟩

/-- Claim C9: `WithEnterpriseContractConfigMap` appends exactly three scalar
parameters with the fixed names for git-resolver URL, revision and
path-in-repo, in that order, each value read from the corresponding fixed key
of the config source; a key absent from the source yields the empty-string
value and never an error. -/
theorem C9_config_map_params (r : ReleasePipelineRun) (cm : ConfigMap) :
    ((WithEnterpriseContractConfigMap r cm).spec.params
        = r.spec.params ++
          [{ name := "verify_ec_task_git_url",
             value := { type := .string,
                        stringVal := (mapLookup cm.data "verify_ec_task_git_url").getD "",
                        arrayVal := [] } },
           { name := "verify_ec_task_git_revision",
             value := { type := .string,
                        stringVal := (mapLookup cm.data "verify_ec_task_git_revision").getD "",
                        arrayVal := [] } },
           { name := "verify_ec_task_git_pathInRepo",
             value := { type := .string,
                        stringVal := (mapLookup cm.data "verify_ec_task_git_pathInRepo").getD "",
                        arrayVal := [] } }])
    ∧ ∀ k, mapLookup cm.data k = none → mapGetD cm.data k = "" := by
  constructor
  · simp [WithEnterpriseContractConfigMap, gitResolverFields, WithExtraParam, mapGetD,
      List.append_assoc]
  · intro k hk
    simp [mapGetD, hk]

/-- Claim C10: `WithOwner` adds the deletion-guard finalizer unconditionally —
for every run and every outcome of the external owner-annotation call — and,
the error of that call being discarded, a run for which owner-annotation
recording fails carries the finalizer marker but its annotations (hence no
owner back-reference) are unchanged. -/
theorem C10_owner_finalizer_unconditional (r : ReleasePipelineRun)
    (ownerAnnos : Option (List (String × String))) :
    ReleaseFinalizer ∈ (WithOwner r ownerAnnos).objectMeta.finalizers
    ∧ (ownerAnnos = none →
        (WithOwner r ownerAnnos).objectMeta.annotations = r.objectMeta.annotations) := by
  constructor
  · cases ownerAnnos <;> exact addFinalizer_mem _ _
  · intro h
    subst h
    exact addFinalizer_annotations _ _
